import Mathlib

/-!
Verification of the PowerBI-Fabric metadata extractor.

This file embeds, in Lean, the two core pieces of the repository:

* `get_paginated_data_async` (src/powerbi_api_utils.py, lines 69-112): the
  paginated, retrying fetch loop.  The HTTP boundary is modelled by a script
  of responses consumed one per request; sleeps and requests are recorded in
  an event trace.

* `get_all_metadata` (src/powerbi_metadata_extractor.py, lines 11-185): the
  JSON-to-table flattening orchestrator.  pandas DataFrames are modelled by
  the `Frame` structure (a list of column names plus a positional cell
  matrix); the synchronous fetch helpers it calls are external data
  suppliers, modelled as an `ApiData` oracle supplying the records each URL
  would return.
-/

/-- JSON values as decoded by `response.json()` / `json.load`.  Numbers are
modelled as integers (no claim involves non-integer numerics). -/
inductive Json where
  | null
  | bool (b : Bool)
  | num (n : Int)
  | str (s : String)
  | arr (elems : List Json)
  | obj (fields : List (String × Json))

/-- `dict.get(k)` on a decoded JSON object: first binding of the key, if any
(Python dicts have unique keys, so first-match lookup is exact). -/
def lookupJ : List (String × Json) → String → Option Json
  | [], _ => none
  | p :: rest, k => if p.1 == k then some p.2 else lookupJ rest k

/-- Python truthiness of a decoded JSON value (used by `while next_page_url`
and `if gateway_id:` style tests). -/
def truthy : Json → Bool
  | .null => false
  | .bool b => b
  | .num n => !(n == 0)
  | .str s => !(s == "")
  | .arr xs => !xs.isEmpty
  | .obj kvs => !kvs.isEmpty

/-- Whether the value is a JSON list (`isinstance(value, list)`). -/
def Json.isArr : Json → Bool
  | .arr _ => true
  | _ => false

/-- The outcome of one HTTP request in the scripted server model:
`ok body` is a 2xx response whose JSON body decoded to `body`;
`httpError s` is a response on which `raise_for_status` throws
`httpx.HTTPStatusError` with status `s`; `exn` is any other failure raised
inside the try block (network error, JSON decode error). -/
inductive Resp where
  | ok (body : Json)
  | httpError (status : Nat)
  | exn

/-- Observable side effects of the fetcher: an HTTP GET (recording the url
and whether a non-None `params` dict was passed), and an `asyncio.sleep`
with its duration in seconds. -/
inductive Event where
  | request (url : String) (withParams : Bool)
  | sleep (d : Rat)
deriving DecidableEq

/-- Result of the per-page attempt loop `for attempt in range(max_retries)`:
`page recs next` is the `break` path (records appended, new value of
`next_page_url`); the two `raised` constructors are the re-raise paths;
`exceeded` is the for-else path (`Max retries exceeded` logged); `starved`
is a model artifact: the response script ran out. -/
inductive PageResult where
  | page (recs : List Json) (next : Option Json)
  | raisedHttp (status : Nat)
  | raisedOther
  | exceeded
  | starved

/-- Result of a whole `get_paginated_data_async` call: `success` is the
normal `return all_data`; `exhausted` is the return reached through the
for-else branch (same returned list, but the `Max retries exceeded` error
was logged); the `raised` constructors are propagated exceptions; `starved`
is the script-ran-out model artifact. -/
inductive FetchOutcome where
  | success (records : List Json)
  | exhausted (records : List Json)
  | raisedHttp (status : Nat)
  | raisedOther
  | starved

/-- `e.response.status_code in [429, 502, 503, 504]` (line 98). -/
def retryable (s : Nat) : Bool :=
  s == 429 || s == 502 || s == 503 || s == 504

/-- The attempt loop `for attempt in range(max_retries)` (lines 78-107) for
one page.  `origUrl`/`hp` mirror the `url`/`params` arguments (`hp` records
whether `params` is not None); `pageUrl` is the current `next_page_url`
(known truthy on entry).  Each attempt consumes the head of `script`.
Returns the page result, the remaining script, and the emitted events. -/
def attemptLoop (origUrl : String) (hp : Bool) (mr : Nat) (b : Rat)
    (pageUrl : Json) : List Resp → Nat → PageResult × List Resp × List Event
  | script, attempt =>
    if attempt < mr then
      match pageUrl with
      | .str u =>
        match script with
        | [] => (.starved, [], [])
        | r :: rest =>
          -- current_params = params if next_page_url == url else None (line 80)
          let ev : Event := .request u (hp && (u == origUrl))
          match r with
          | .ok body =>
            match body with
            | .obj fields =>
              -- value = data.get('value', []) (line 85)
              match (lookupJ fields "value").getD (.arr []) with
              | .arr items =>
                (.page items (lookupJ fields "@odata.nextLink"), rest, [ev])
              | v => (.page [v] none, rest, [ev])
            | _ =>
              -- data.get on a non-dict body raises, caught by `except Exception`
              (.raisedOther, rest, [ev])
          | .httpError s =>
            if retryable s ∧ attempt < mr - 1 then
              let k := attemptLoop origUrl hp mr b pageUrl rest (attempt + 1)
              (k.1, k.2.1, ev :: .sleep (b * 2 ^ attempt) :: k.2.2)
            else (.raisedHttp s, rest, [ev])
          | .exn => (.raisedOther, rest, [ev])
      | _ =>
        -- client.get on a non-string url raises before any request is sent
        (.raisedOther, script, [])
    else (.exceeded, script, [])

/-- The page loop `while next_page_url` (lines 77-110).  `fuel` bounds the
number of page iterations (the caller passes `script.length + 1`, enough for
any run that stays within the script); `acc` is `all_data`. -/
def pageLoop (origUrl : String) (hp : Bool) (mr : Nat) (b : Rat) :
    Nat → List Resp → Option Json → List Json → List Event →
    FetchOutcome × List Event
  | fuel, script, nextUrl, acc, evs =>
    match nextUrl with
    | none => (.success acc, evs)
    | some u =>
      if truthy u then
        match fuel with
        | 0 => (.starved, evs)
        | fuel' + 1 =>
          match attemptLoop origUrl hp mr b u script 0 with
          | (.page recs next, rest, evs2) =>
            pageLoop origUrl hp mr b fuel' rest next (acc ++ recs) (evs ++ evs2)
          | (.raisedHttp s, _, evs2) => (.raisedHttp s, evs ++ evs2)
          | (.raisedOther, _, evs2) => (.raisedOther, evs ++ evs2)
          | (.exceeded, _, evs2) => (.exhausted acc, evs ++ evs2)
          | (.starved, _, evs2) => (.starved, evs ++ evs2)
      else (.success acc, evs)

/-- `get_paginated_data_async(client, url, headers, params, max_retries,
backoff_factor)` (lines 69-112) run against a scripted server.  `hp` is
whether `params` is not None; the source defaults are `max_retries=5`,
`backoff_factor=2.0`.  Returns the outcome together with the trace of
requests and sleeps. -/
def get_paginated_data_async (script : List Resp) (url : String) (hp : Bool)
    (mr : Nat) (b : Rat) : FetchOutcome × List Event :=
  pageLoop url hp mr b (script.length + 1) script (some (.str url)) [] []

/-- The request events of a trace, as (url, withParams) pairs. -/
def requestEvents (evs : List Event) : List (String × Bool) :=
  evs.filterMap fun e =>
    match e with
    | .request u wp => some (u, wp)
    | _ => none

/-- The sleep durations of a trace, in order. -/
def sleepEvents (evs : List Event) : List Rat :=
  evs.filterMap fun e =>
    match e with
    | .sleep d => some d
    | _ => none

theorem attemptLoop_ne_exceeded (origUrl : String) (hp : Bool) (mr : Nat)
    (b : Rat) (pageUrl : Json) :
    ∀ (script : List Resp) (attempt : Nat), attempt < mr →
      (attemptLoop origUrl hp mr b pageUrl script attempt).1 ≠ .exceeded := by
  intro script
  induction script with
  | nil =>
    intro attempt h
    rw [attemptLoop.eq_def]
    simp only [if_pos h]
    split <;> simp
  | cons r rest ih =>
    intro attempt h
    rw [attemptLoop.eq_def]
    simp only [if_pos h]
    repeat' split
    all_goals try simp
    all_goals
      rename_i hcond
      exact ih (attempt + 1) (by have := hcond.2; omega)

theorem pageLoop_ne_exhausted (origUrl : String) (hp : Bool) (mr : Nat)
    (b : Rat) (hmr : 1 ≤ mr) :
    ∀ (fuel : Nat) (script : List Resp) (nextUrl : Option Json)
      (acc : List Json) (evs : List Event) (recs : List Json),
      (pageLoop origUrl hp mr b fuel script nextUrl acc evs).1
        ≠ .exhausted recs := by
  intro fuel
  induction fuel with
  | zero =>
    intro script nextUrl acc evs recs
    cases nextUrl with
    | none => rw [pageLoop]; simp
    | some u =>
      rw [pageLoop]
      by_cases ht : truthy u <;> simp [ht]
  | succ fuel ih =>
    intro script nextUrl acc evs recs
    cases nextUrl with
    | none => rw [pageLoop]; simp
    | some u =>
      rw [pageLoop]
      by_cases ht : truthy u
      · simp only [if_pos ht]
        rcases ha : attemptLoop origUrl hp mr b u script 0 with ⟨pr, rest2, evs2⟩
        cases pr with
        | page recs2 next => exact ih rest2 next (acc ++ recs2) (evs ++ evs2) recs
        | raisedHttp s => simp
        | raisedOther => simp
        | exceeded =>
          exact absurd (congrArg (fun t => t.1) ha)
            (attemptLoop_ne_exceeded origUrl hp mr b u script 0 hmr)
        | starved => simp
      · simp [ht]

/-- C9: for every `max_retries ≥ 1`, every run, the for-else
`Max retries exceeded` branch (which would log, break and return the
truncated accumulation) is unreachable. -/
theorem c9_exhausted_unreachable (script : List Resp) (url : String)
    (hp : Bool) (mr : Nat) (b : Rat) (hmr : 1 ≤ mr) :
    ∀ recs, (get_paginated_data_async script url hp mr b).1
      ≠ .exhausted recs := by
  intro recs
  exact pageLoop_ne_exhausted url hp mr b hmr _ script _ [] [] recs

theorem c9_witness :
    1 ≤ 5 ∧ (get_paginated_data_async [Resp.httpError 503] "u" false 5 2).1
      ≠ FetchOutcome.exhausted [] :=
  ⟨by decide,
   c9_exhausted_unreachable [Resp.httpError 503] "u" false 5 2 (by decide) []⟩

theorem attemptLoop_allRetryableRaises (origUrl : String) (hp : Bool)
    (mr : Nat) (b : Rat) (u : String) (s : Nat) (rest : List Resp)
    (hs : retryable s = true) :
    ∀ (j attempt : Nat), attempt + j + 1 = mr →
      (attemptLoop origUrl hp mr b (.str u)
          (List.replicate (j + 1) (.httpError s) ++ rest) attempt).1
        = .raisedHttp s
      ∧ (attemptLoop origUrl hp mr b (.str u)
          (List.replicate (j + 1) (.httpError s) ++ rest) attempt).2.1
        = rest := by
  intro j
  induction j with
  | zero =>
    intro attempt h
    have hlt : attempt < mr := by omega
    have hnot : ¬(retryable s = true ∧ attempt < mr - 1) := by
      rintro ⟨-, hc⟩; omega
    have step : attemptLoop origUrl hp mr b (.str u)
        (List.replicate 1 (.httpError s) ++ rest) attempt
        = (.raisedHttp s, rest, [.request u (hp && (u == origUrl))]) := by
      rw [attemptLoop.eq_def]
      simp [hlt, hnot, List.replicate_succ]
    exact ⟨by rw [step], by rw [step]⟩
  | succ j ihj =>
    intro attempt h
    have hlt : attempt < mr := by omega
    have hcond : retryable s = true ∧ attempt < mr - 1 := ⟨hs, by omega⟩
    obtain ⟨ih1, ih2⟩ := ihj (attempt + 1) (by omega)
    have step : attemptLoop origUrl hp mr b (.str u)
        (List.replicate (j + 2) (.httpError s) ++ rest) attempt
        = ((attemptLoop origUrl hp mr b (.str u)
              (List.replicate (j + 1) (.httpError s) ++ rest) (attempt + 1)).1,
           (attemptLoop origUrl hp mr b (.str u)
              (List.replicate (j + 1) (.httpError s) ++ rest) (attempt + 1)).2.1,
           .request u (hp && (u == origUrl)) :: .sleep (b * 2 ^ attempt) ::
             (attemptLoop origUrl hp mr b (.str u)
               (List.replicate (j + 1) (.httpError s) ++ rest)
               (attempt + 1)).2.2) := by
      rw [attemptLoop.eq_def]
      simp [hlt, hcond, List.replicate_succ]
    exact ⟨by rw [step]; exact ih1, by rw [step]; exact ih2⟩

/-- C1: when every attempt at some page (any page, with any records already
accumulated) fails with a retryable status until the attempt ceiling
`max_retries` is reached, the call raises that HTTP error instead of
returning an empty or partial accumulated list; in particular the whole
fetch raises when its script is `max_retries` retryable errors. -/
theorem c1_retry_exhaustion_raises (origUrl u : String) (hp : Bool)
    (mr : Nat) (b : Rat) (s : Nat) (rest : List Resp) (acc : List Json)
    (evs : List Event) (fuel : Nat)
    (hmr : 1 ≤ mr) (hs : retryable s = true) (hu : u ≠ "")
    (hfuel : 1 ≤ fuel) :
    (pageLoop origUrl hp mr b fuel
        (List.replicate mr (.httpError s) ++ rest) (some (.str u)) acc
        evs).1 = .raisedHttp s
    ∧ (get_paginated_data_async (List.replicate mr (.httpError s) ++ rest)
        u hp mr b).1 = .raisedHttp s := by
  have key : ∀ (origUrl2 : String) (fuel2 : Nat) (acc2 : List Json)
      (evs2 : List Event), 1 ≤ fuel2 →
      (pageLoop origUrl2 hp mr b fuel2
          (List.replicate mr (.httpError s) ++ rest) (some (.str u)) acc2
          evs2).1 = .raisedHttp s := by
    intro origUrl2 fuel2 acc2 evs2 hf
    obtain ⟨f, rfl⟩ : ∃ f, fuel2 = f + 1 := ⟨fuel2 - 1, by omega⟩
    obtain ⟨m, hm⟩ : ∃ m, mr = m + 1 := ⟨mr - 1, by omega⟩
    subst hm
    obtain ⟨h1, _⟩ := attemptLoop_allRetryableRaises origUrl2 hp (m + 1) b u
      s rest hs m 0 (by omega)
    have ht : truthy (Json.str u) = true := by simp [truthy, hu]
    rw [pageLoop]
    simp only [if_pos ht]
    rcases ha : attemptLoop origUrl2 hp (m + 1) b (.str u)
        (List.replicate (m + 1) (.httpError s) ++ rest) 0 with ⟨pr, r2, e2⟩
    rw [ha] at h1
    cases pr <;> simp_all
  constructor
  · exact key origUrl fuel acc evs hfuel
  · rw [get_paginated_data_async]
    exact key u _ [] [] (by omega)

theorem c1_witness :
    (1 ≤ 3 ∧ retryable 503 = true ∧ "u" ≠ "" ∧ 1 ≤ 1)
    ∧ ((pageLoop "o" false 3 2 1
          (List.replicate 3 (.httpError 503) ++ []) (some (.str "u"))
          [Json.str "prev"] []).1 = .raisedHttp 503
       ∧ (get_paginated_data_async
          (List.replicate 3 (.httpError 503) ++ []) "u" false 3 2).1
        = .raisedHttp 503) :=
  ⟨⟨by decide, by decide, by decide, by decide⟩,
   c1_retry_exhaustion_raises "o" "u" false 3 2 503 [] [Json.str "prev"] []
     1 (by decide) (by decide) (by decide) (by decide)⟩

/-- A fresh continuation-link url for page `i` of a scripted pagination. -/
def pageUrlFor (i : Nat) : String := "page" ++ toString i

/-- A well-formed paginated response script: each page carries its items in
`value` and, except for the last page, an `@odata.nextLink` continuation. -/
def mkPagedScript : List (List Json) → Nat → List Resp
  | [], _ => []
  | [last], _ => [.ok (.obj [("value", .arr last)])]
  | p :: rest, i =>
      .ok (.obj [("value", .arr p),
                 ("@odata.nextLink", .str (pageUrlFor (i + 1)))]) ::
        mkPagedScript rest (i + 1)

theorem pageUrlFor_ne_empty (i : Nat) : pageUrlFor i ≠ "" := by
  intro h
  have h2 := congrArg String.length h
  rw [pageUrlFor, String.length_append] at h2
  have h4 : "page".length = 4 := by decide
  have h0 : "".length = 0 := by decide
  omega

theorem mkPagedScript_length :
    ∀ (pages : List (List Json)) (i : Nat),
      (mkPagedScript pages i).length = pages.length := by
  intro pages
  induction pages with
  | nil => intro i; rfl
  | cons p rest ih =>
    intro i
    cases rest with
    | nil => rfl
    | cons q rest' => simp [mkPagedScript, ih (i + 1)]

theorem pageLoop_paged (origUrl : String) (hp : Bool) (mr : Nat) (b : Rat)
    (hmr : 1 ≤ mr) :
    ∀ (pages : List (List Json)), pages ≠ [] →
    ∀ (i : Nat) (cur : String) (acc : List Json) (evs : List Event)
      (fuel : Nat), cur ≠ "" → pages.length ≤ fuel →
      (pageLoop origUrl hp mr b fuel (mkPagedScript pages i)
          (some (.str cur)) acc evs).1
        = .success (acc ++ pages.flatten) := by
  intro pages
  induction pages with
  | nil => intro h; exact absurd rfl h
  | cons p rest ih =>
    intro _ i cur acc evs fuel hcur hfuel
    obtain ⟨f, rfl⟩ : ∃ f, fuel = f + 1 := ⟨fuel - 1, by simp at hfuel; omega⟩
    have ht : truthy (Json.str cur) = true := by simp [truthy, hcur]
    cases rest with
    | nil =>
      have ha : attemptLoop origUrl hp mr b (.str cur)
          (mkPagedScript [p] i) 0
          = (.page p none, [], [.request cur (hp && (cur == origUrl))]) := by
        rw [attemptLoop.eq_def]
        simp [mkPagedScript, lookupJ]
        omega
      rw [pageLoop]
      simp only [if_pos ht]
      rw [ha]
      simp [pageLoop.eq_1]
    | cons q rest' =>
      have ha : attemptLoop origUrl hp mr b (.str cur)
          (mkPagedScript (p :: q :: rest') i) 0
          = (.page p (some (.str (pageUrlFor (i + 1)))),
             mkPagedScript (q :: rest') (i + 1),
             [.request cur (hp && (cur == origUrl))]) := by
        rw [attemptLoop.eq_def]
        simp [mkPagedScript, lookupJ]
        omega
      rw [pageLoop]
      simp only [if_pos ht]
      rw [ha]
      have := ih (by simp) (i + 1) (pageUrlFor (i + 1)) (acc ++ p)
        (evs ++ [.request cur (hp && (cur == origUrl))]) f
        (pageUrlFor_ne_empty (i + 1)) (by simp at hfuel ⊢; omega)
      simp [this, List.append_assoc]

/-- C2: for every split of items into pages chained by `@odata.nextLink`,
the fetch returns exactly the concatenation of the pages' `value` lists in
server order; the item count is the sum of the page sizes. -/
theorem c2_pagination_preserves_items (pages : List (List Json))
    (url : String) (hp : Bool) (mr : Nat) (b : Rat)
    (hmr : 1 ≤ mr) (hurl : url ≠ "") (hpages : pages ≠ []) :
    (get_paginated_data_async (mkPagedScript pages 0) url hp mr b).1
      = .success pages.flatten
    ∧ pages.flatten.length = (pages.map List.length).sum := by
  constructor
  · rw [get_paginated_data_async]
    exact pageLoop_paged url hp mr b hmr pages hpages 0 url [] [] _ hurl
      (by rw [mkPagedScript_length]; omega)
  · simp [List.length_flatten]

theorem c2_witness :
    (1 ≤ 5 ∧ "u" ≠ "" ∧ ([[Json.str "a"], [Json.str "b", Json.str "c"]] :
        List (List Json)) ≠ [])
    ∧ (get_paginated_data_async
        (mkPagedScript [[Json.str "a"], [Json.str "b", Json.str "c"]] 0)
        "u" false 5 2).1
      = .success [Json.str "a", Json.str "b", Json.str "c"] :=
  ⟨⟨by decide, by decide, List.cons_ne_nil _ _⟩,
   (c2_pagination_preserves_items
      [[Json.str "a"], [Json.str "b", Json.str "c"]] "u" false 5 2
      (by decide) (by decide) (List.cons_ne_nil _ _)).1⟩

/-- C3: every retried attempt sleeps `backoff_factor * 2 ^ attempt`
seconds (attempt 0-indexed); when the first two attempts return 429 and the
third succeeds, the call succeeds having slept exactly `b * 1` and `b * 2`
before the third request. -/
theorem c3_backoff_schedule (b : Rat) (mr attempt s : Nat)
    (script : List Resp) (u origUrl : String) (hp : Bool)
    (hs : retryable s = true) (h : attempt < mr - 1) :
    attemptLoop origUrl hp mr b (.str u) (.httpError s :: script) attempt
      = ((attemptLoop origUrl hp mr b (.str u) script (attempt + 1)).1,
         (attemptLoop origUrl hp mr b (.str u) script (attempt + 1)).2.1,
         .request u (hp && (u == origUrl)) :: .sleep (b * 2 ^ attempt) ::
           (attemptLoop origUrl hp mr b (.str u) script (attempt + 1)).2.2)
    ∧ get_paginated_data_async
        [.httpError 429, .httpError 429,
         .ok (.obj [("value", .arr [.str "x"])])] "u" hp 5 b
      = (.success [.str "x"],
         [.request "u" hp, .sleep (b * 1), .request "u" hp, .sleep (b * 2),
          .request "u" hp]) := by
  constructor
  · have hlt : attempt < mr := Nat.lt_of_lt_of_le h (Nat.sub_le mr 1)
    rw [attemptLoop.eq_def]
    simp [hlt, hs, h]
  · norm_num +decide [get_paginated_data_async, pageLoop, attemptLoop,
      retryable, truthy, lookupJ]

theorem c3_witness :
    (retryable 429 = true ∧ 0 < 5 - 1)
    ∧ (attemptLoop "u" false 5 2 (.str "u") [.httpError 429] 0
        = ((attemptLoop "u" false 5 2 (.str "u") [] 1).1,
           (attemptLoop "u" false 5 2 (.str "u") [] 1).2.1,
           .request "u" (false && ("u" == "u")) :: .sleep (2 * 2 ^ 0) ::
             (attemptLoop "u" false 5 2 (.str "u") [] 1).2.2)
       ∧ get_paginated_data_async
          [.httpError 429, .httpError 429,
           .ok (.obj [("value", .arr [.str "x"])])] "u" false 5 2
        = (.success [.str "x"],
           [.request "u" false, .sleep ((2 : Rat) * 1), .request "u" false,
            .sleep ((2 : Rat) * 2), .request "u" false])) :=
  ⟨⟨by decide, by decide⟩,
   c3_backoff_schedule 2 5 0 429 [] "u" "u" false (by decide) (by decide)⟩

/-- C4: a response whose `value` is present but not a list is appended as
a single record and pagination stops immediately — even when the response
carries a continuation link and further responses are available — returning
the accumulated records plus that one record, with no further request. -/
theorem c4_nonlist_value_stops (fields : List (String × Json)) (v : Json)
    (extra : List Resp) (acc : List Json) (evs : List Event)
    (u origUrl : String) (hp : Bool) (mr fuel : Nat) (b : Rat)
    (hv : lookupJ fields "value" = some v) (hnl : v.isArr = false)
    (hu : u ≠ "") (hmr : 1 ≤ mr) (hfuel : 1 ≤ fuel) :
    pageLoop origUrl hp mr b fuel (.ok (.obj fields) :: extra)
        (some (.str u)) acc evs
      = (.success (acc ++ [v]), evs ++ [.request u (hp && (u == origUrl))])
    ∧ get_paginated_data_async (.ok (.obj fields) :: extra) u hp mr b
      = (.success [v], [.request u hp]) := by
  have key : ∀ (fuel2 : Nat) (acc2 : List Json) (evs2 : List Event)
      (origUrl2 : String), 1 ≤ fuel2 →
      pageLoop origUrl2 hp mr b fuel2 (.ok (.obj fields) :: extra)
          (some (.str u)) acc2 evs2
        = (.success (acc2 ++ [v]),
           evs2 ++ [.request u (hp && (u == origUrl2))]) := by
    intro fuel2 acc2 evs2 origUrl2 hf
    obtain ⟨f, rfl⟩ : ∃ f, fuel2 = f + 1 := ⟨fuel2 - 1, by omega⟩
    have ht : truthy (Json.str u) = true := by simp [truthy, hu]
    have ha : attemptLoop origUrl2 hp mr b (.str u)
        (.ok (.obj fields) :: extra) 0
        = (.page [v] none, extra, [.request u (hp && (u == origUrl2))]) := by
      rw [attemptLoop.eq_def]
      cases v <;> simp_all [Json.isArr] <;> omega
    rw [pageLoop]
    simp only [if_pos ht]
    rw [ha]
    simp [pageLoop.eq_1]
  constructor
  · exact key fuel acc evs origUrl hfuel
  · rw [get_paginated_data_async]
    rw [key _ [] [] u (by omega)]
    simp

theorem c4_witness :
    (lookupJ [("value", Json.obj [("k", Json.num 1)]),
              ("@odata.nextLink", Json.str "more")] "value"
        = some (Json.obj [("k", Json.num 1)])
     ∧ (Json.obj [("k", Json.num 1)]).isArr = false
     ∧ "u" ≠ "" ∧ 1 ≤ 5 ∧ 1 ≤ 1)
    ∧ (pageLoop "o" true 5 2 1
        (.ok (.obj [("value", Json.obj [("k", Json.num 1)]),
                    ("@odata.nextLink", Json.str "more")]) :: [.exn])
        (some (.str "u")) [Json.str "p"] []
        = (.success [Json.str "p", Json.obj [("k", Json.num 1)]],
           [.request "u" (true && ("u" == "o"))])
       ∧ get_paginated_data_async
          (.ok (.obj [("value", Json.obj [("k", Json.num 1)]),
                      ("@odata.nextLink", Json.str "more")]) :: [.exn])
          "u" true 5 2
        = (.success [Json.obj [("k", Json.num 1)]], [.request "u" true])) :=
  ⟨⟨rfl, rfl, by decide, by decide, by decide⟩,
   c4_nonlist_value_stops
     [("value", Json.obj [("k", Json.num 1)]),
      ("@odata.nextLink", Json.str "more")]
     (Json.obj [("k", Json.num 1)]) [.exn] [Json.str "p"] [] "u" "o" true 5 1
     2 rfl rfl (by decide) (by decide) (by decide)⟩

/-- C5: an HTTP error status outside `{429, 502, 503, 504}` raises on the
first such response with no retry and no sleep and no returned records
(whatever was accumulated); a non-HTTP failure raises likewise. -/
theorem c5_permanent_error_fails_fast (s : Nat) (extra : List Resp)
    (acc : List Json) (evs : List Event) (u origUrl : String) (hp : Bool)
    (mr fuel : Nat) (b : Rat)
    (hs : retryable s = false) (hu : u ≠ "") (hmr : 1 ≤ mr)
    (hfuel : 1 ≤ fuel) :
    pageLoop origUrl hp mr b fuel (.httpError s :: extra)
        (some (.str u)) acc evs
      = (.raisedHttp s, evs ++ [.request u (hp && (u == origUrl))])
    ∧ pageLoop origUrl hp mr b fuel (.exn :: extra) (some (.str u)) acc evs
      = (.raisedOther, evs ++ [.request u (hp && (u == origUrl))]) := by
  obtain ⟨f, rfl⟩ : ∃ f, fuel = f + 1 := ⟨fuel - 1, by omega⟩
  have ht : truthy (Json.str u) = true := by simp [truthy, hu]
  constructor
  · have ha : attemptLoop origUrl hp mr b (.str u) (.httpError s :: extra) 0
        = (.raisedHttp s, extra, [.request u (hp && (u == origUrl))]) := by
      rw [attemptLoop.eq_def]
      simp [hs]
      omega
    rw [pageLoop]
    simp only [if_pos ht]
    rw [ha]
  · have ha : attemptLoop origUrl hp mr b (.str u) (.exn :: extra) 0
        = (.raisedOther, extra, [.request u (hp && (u == origUrl))]) := by
      rw [attemptLoop.eq_def]
      simp
      omega
    rw [pageLoop]
    simp only [if_pos ht]
    rw [ha]

theorem c5_witness :
    (retryable 403 = false ∧ "u" ≠ "" ∧ 1 ≤ 5 ∧ 1 ≤ 1)
    ∧ (pageLoop "u" false 5 2 1 (.httpError 403 :: [.exn])
        (some (.str "u")) [] []
        = (.raisedHttp 403, [] ++ [.request "u" (false && ("u" == "u"))])
       ∧ pageLoop "u" false 5 2 1 (.exn :: [.exn]) (some (.str "u")) [] []
        = (.raisedOther, [] ++ [.request "u" (false && ("u" == "u"))])) :=
  ⟨⟨by decide, by decide, by decide, by decide⟩,
   c5_permanent_error_fails_fast 403 [.exn] [] [] "u" "u" false 5 1 2
     (by decide) (by decide) (by decide) (by decide)⟩

/-- C10: a successful response whose body has no `value` key contributes
zero records and raises nothing; the loop continues or ends according to
that response's `@odata.nextLink`. -/
theorem c10_missing_value_is_empty (fields : List (String × Json))
    (rest : List Resp) (u origUrl : String) (hp : Bool) (mr fuel : Nat)
    (b : Rat) (acc : List Json) (evs : List Event)
    (hv : lookupJ fields "value" = none) (hu : u ≠ "") (hmr : 1 ≤ mr) :
    pageLoop origUrl hp mr b (fuel + 1) (.ok (.obj fields) :: rest)
        (some (.str u)) acc evs
      = pageLoop origUrl hp mr b fuel rest (lookupJ fields "@odata.nextLink")
          acc (evs ++ [.request u (hp && (u == origUrl))]) := by
  have ht : truthy (Json.str u) = true := by simp [truthy, hu]
  have ha : attemptLoop origUrl hp mr b (.str u) (.ok (.obj fields) :: rest) 0
      = (.page [] (lookupJ fields "@odata.nextLink"), rest,
         [.request u (hp && (u == origUrl))]) := by
    rw [attemptLoop.eq_def]
    simp [hv]
    omega
  rw [pageLoop]
  simp only [if_pos ht]
  rw [ha]
  simp only [List.append_nil]

theorem c10_witness :
    (lookupJ [("foo", Json.null)] "value" = none ∧ "u" ≠ "" ∧ 1 ≤ 5)
    ∧ pageLoop "u" false 5 2 (0 + 1) (.ok (.obj [("foo", Json.null)]) :: [])
        (some (.str "u")) [] []
      = pageLoop "u" false 5 2 0 []
          (lookupJ [("foo", Json.null)] "@odata.nextLink") []
          ([] ++ [.request "u" (false && ("u" == "u"))]) :=
  ⟨⟨rfl, by decide, by decide⟩,
   c10_missing_value_is_empty [("foo", Json.null)] [] "u" "u" false 5 0 2 []
     [] rfl (by decide) (by decide)⟩

/-- The params discipline the code actually implements: a request carries
the `params` dict exactly when `params` is not None and the request's url
equals the original `url` argument (line 80 compares `next_page_url == url`,
not "is this the first page"). -/
def paramOk (hp : Bool) (origUrl : String) : Event → Bool
  | .request u wp => wp == (hp && (u == origUrl))
  | .sleep _ => true

theorem attemptLoop_paramOk (origUrl : String) (hp : Bool) (mr : Nat)
    (b : Rat) (pageUrl : Json) :
    ∀ (script : List Resp) (attempt : Nat),
      ((attemptLoop origUrl hp mr b pageUrl script attempt).2.2).all
        (paramOk hp origUrl) = true := by
  intro script
  induction script with
  | nil =>
    intro attempt
    rw [attemptLoop.eq_def]
    repeat' split
    all_goals simp_all [paramOk, -List.all_eq_true]
  | cons r rest ih =>
    intro attempt
    rw [attemptLoop.eq_def]
    repeat' split
    all_goals simp_all [paramOk, -List.all_eq_true]

theorem pageLoop_paramOk (origUrl : String) (hp : Bool) (mr : Nat)
    (b : Rat) :
    ∀ (fuel : Nat) (script : List Resp) (nextUrl : Option Json)
      (acc : List Json) (evs : List Event),
      evs.all (paramOk hp origUrl) = true →
      ((pageLoop origUrl hp mr b fuel script nextUrl acc evs).2).all
        (paramOk hp origUrl) = true := by
  intro fuel
  induction fuel with
  | zero =>
    intro script nextUrl acc evs h
    cases nextUrl with
    | none => rw [pageLoop.eq_1]; exact h
    | some u =>
      rw [pageLoop]
      by_cases ht : truthy u <;> simp [ht, h]
  | succ fuel ih =>
    intro script nextUrl acc evs h
    cases nextUrl with
    | none => rw [pageLoop.eq_1]; exact h
    | some u =>
      rw [pageLoop]
      by_cases ht : truthy u
      · simp only [if_pos ht]
        rcases ha : attemptLoop origUrl hp mr b u script 0 with ⟨pr, rest2, evs2⟩
        have h2 : evs2.all (paramOk hp origUrl) = true := by
          have := attemptLoop_paramOk origUrl hp mr b u script 0
          rw [ha] at this
          exact this
        cases pr with
        | page recs2 next =>
          exact ih rest2 next (acc ++ recs2) (evs ++ evs2)
            (by simp [List.all_append, h, h2])
        | raisedHttp s => simp [List.all_append, h, h2]
        | raisedOther => simp [List.all_append, h, h2]
        | exceeded => simp [List.all_append, h, h2]
        | starved => simp [List.all_append, h, h2]
      · simp [ht, h]

/-- C6 (amended): in every run, a request carries the `params` dict
exactly when `params` is not None and the request's URL equals the `url`
argument — so the first page's attempts carry params, and a continuation
request carries them iff its link equals the starting url. -/
theorem c6_amended_params_iff_url_matches (script : List Resp) (url : String)
    (hp : Bool) (mr : Nat) (b : Rat) :
    ((get_paginated_data_async script url hp mr b).2).all (paramOk hp url)
      = true := by
  rw [get_paginated_data_async]
  exact pageLoop_paramOk url hp mr b _ script (some (.str url)) [] [] rfl

/-- A pagination whose continuation link equals the starting url. -/
def scriptC6 : List Resp :=
  [.ok (.obj [("value", .arr []), ("@odata.nextLink", .str "u")]),
   .ok (.obj [("value", .arr [])])]

/-- C6 (counterexample): when the continuation link equals the starting
url, the second request — a subsequent request to a continuation-link URL —
is sent **with** params, so "every subsequent request ... is sent with no
params" fails. -/
theorem c6_counterexample :
    requestEvents (get_paginated_data_async scriptC6 "u" true 5 2).2
      = [("u", true), ("u", true)]
    ∧ ¬(((requestEvents
            (get_paginated_data_async scriptC6 "u" true 5 2).2).drop 1).all
          (fun p => !p.2) = true) := by
  constructor
  · rfl
  · decide

/-! ### The metadata flattener (src/powerbi_metadata_extractor.py) -/

/-- A decoded JSON object's field list, i.e. a Python dict. -/
abbrev Rec := List (String × Json)

/-- `d[k] = v` on a Python dict: replaces the value in place when the key
exists, appends the binding otherwise (insertion-order semantics). -/
def dictUpdate (r : Rec) (k : String) (v : Json) : Rec :=
  if r.any (fun p => p.1 == k) then
    r.map (fun p => if p.1 == k then (k, v) else p)
  else r ++ [(k, v)]

/-- `d.pop(k)` (the removal part) / dict-comprehension key filtering. -/
def dictRemove (r : Rec) (k : String) : Rec :=
  r.filter (fun p => !(p.1 == k))

/-- View a JSON value as a dict.  A non-object record would make the source
raise (`.items()` / `.update()` on a non-dict); modelled as the empty dict,
a path no claim depends on. -/
def asObj : Json → Rec
  | .obj kvs => kvs
  | _ => []

/-- View a JSON value as a list (`ws.get(key, [])` sites, which expect the
API to return a list there). -/
def asList : Json → List Json
  | .arr xs => xs
  | _ => []

/-- A pandas DataFrame: labelled columns over a positional cell matrix.
A `none` cell is NaN (the key was absent in that row's source record). -/
structure Frame where
  cols : List String
  rows : List (List (Option Json))

/-- Column labels of `pd.DataFrame(records)`: the union of the records'
keys in first-appearance order. -/
def keysUnion (recs : List Rec) : List String :=
  recs.foldl
    (fun acc r =>
      r.foldl
        (fun acc2 p => if acc2.contains p.1 then acc2 else acc2 ++ [p.1])
        acc)
    []

/-- `pd.DataFrame(records)` for a list of dicts. -/
def mkFrame (recs : List Rec) : Frame :=
  ⟨keysUnion recs,
   recs.map fun r => (keysUnion recs).map fun c => lookupJ r c⟩

/-- `df.empty`: any axis has length zero. -/
def Frame.isEmpty (f : Frame) : Bool :=
  f.rows.isEmpty || f.cols.isEmpty

/-- `col.replace('.', '_').replace(' ', '_')` (used on every table's
columns).  `str.replace` with a one-character pattern is a character-wise
substitution, modelled on the string's character list. -/
def sanitizeCol (s : String) : String :=
  String.mk
    ((s.data.map fun c => if c == '.' then '_' else c).map
      fun c => if c == ' ' then '_' else c)

/-- `df.columns = [col.replace('.', '_').replace(' ', '_') for col in
df.columns]`. -/
def Frame.sanitize (f : Frame) : Frame :=
  ⟨f.cols.map sanitizeCol, f.rows⟩

/-- A row's cell under a column label (`row[name]`; `none` when the label
is absent, where the source would raise a KeyError). -/
def rowCell (cols : List String) (r : List (Option Json)) (name : String) :
    Option Json :=
  match (cols.zip r).find? (fun p => p.1 == name) with
  | some p => p.2
  | none => none

/-- `df[name]` as the column's cell list. -/
def Frame.colCells (f : Frame) (name : String) : List (Option Json) :=
  f.rows.map fun r => rowCell f.cols r name

/-- `df.drop(columns=[name])`. -/
def Frame.dropCol (f : Frame) (name : String) : Frame :=
  ⟨f.cols.filter (fun c => !(c == name)),
   f.rows.map fun r =>
     ((f.cols.zip r).filter (fun p => !(p.1 == name))).map fun p => p.2⟩

/-- `pd.concat([f, g], axis=1)` for frames with equal row counts (every use
below concatenates a frame with one derived row-wise from it). -/
def Frame.hconcat (f g : Frame) : Frame :=
  ⟨f.cols ++ g.cols, List.zipWith (fun a c => a ++ c) f.rows g.rows⟩

/-- `df[name] = df[name].apply(g)` cell-wise (a no-op when the column is
missing, where the source would raise a KeyError — a path no claim
depends on). -/
def Frame.mapCol (f : Frame) (name : String)
    (g : Option Json → Option Json) : Frame :=
  ⟨f.cols,
   f.rows.map fun r =>
     (f.cols.zip r).map fun p => if p.1 == name then g p.2 else p.2⟩

mutual
/-- One key of `pd.json_normalize`: a nested object flattens recursively,
path components joined with `.`. -/
def flattenKV (k : String) : Json → Rec
  | .obj kvs => flattenFields k kvs
  | v => [(k, v)]
/-- The fields of a nested object under path prefix `k`. -/
def flattenFields (k : String) : List (String × Json) → Rec
  | [] => []
  | p :: rest => flattenKV (k ++ "." ++ p.1) p.2 ++ flattenFields k rest
end

/-- `pd.json_normalize` on one cell of an object-valued column: a dict
cell flattens to dotted keys; a NaN / non-dict cell (on which the source
would raise) contributes no keys. -/
def normalizeCell : Option Json → Rec
  | some (.obj kvs) => kvs.flatMap fun p => flattenKV p.1 p.2
  | _ => []

/-- `pd.json_normalize(df[name])` as a frame (one row per cell). -/
def normalizeFrame (cells : List (Option Json)) : Frame :=
  mkFrame (cells.map normalizeCell)

/-- `.add_prefix(p)`. -/
def Frame.prependToCols (f : Frame) (p : String) : Frame :=
  ⟨f.cols.map (fun c => p ++ c), f.rows⟩

/-- Lines 102-105 (and 145-148, 168-171): hoist the `profile` column into
sanitized `profile_`-prefixed columns. -/
def profileHoist (f : Frame) : Frame :=
  if f.cols.contains "profile" then
    (f.dropCol "profile").hconcat
      (((normalizeFrame (f.colCells "profile")).prependToCols
          "profile_").sanitize)
  else f

/-- Lines 60-63: hoist the `details` column of gateway datasources into
`details_`-prefixed sanitized columns. -/
def detailsHoist (f : Frame) : Frame :=
  if f.cols.contains "details" then
    let nf := normalizeFrame (f.colCells "details")
    (f.dropCol "details").hconcat
      ⟨nf.cols.map (fun c => "details_" ++ sanitizeCol c), nf.rows⟩
  else f

/-- Lines 19-21: `', '.join(x) if isinstance(x, list) else
(x if x is not None else None)` on an `admins` cell.  A non-string list
member would raise a TypeError in the source; it is rendered as `""`
here, a path no claim depends on. -/
def joinAdmins : Option Json → Option Json
  | some (.arr xs) =>
      some (.str (String.intercalate ", "
        (xs.map fun j => match j with | .str s => s | _ => "")))
  | c => c

mutual
/-- `json.dumps` with its default separators (`', '` and `': '`).  String
escaping is not modelled (no claim inspects serialized text). -/
def dumpJson : Json → String
  | .null => "null"
  | .bool true => "true"
  | .bool false => "false"
  | .num n => toString n
  | .str s => "\"" ++ s ++ "\""
  | .arr xs => "[" ++ dumpJsonList xs ++ "]"
  | .obj kvs => "\x7b" ++ dumpJsonFields kvs ++ "\x7d"
/-- Comma-joined array elements. -/
def dumpJsonList : List Json → String
  | [] => ""
  | [x] => dumpJson x
  | x :: rest => dumpJson x ++ ", " ++ dumpJsonList rest
/-- Comma-joined `"key": value` pairs. -/
def dumpJsonFields : List (String × Json) → String
  | [] => ""
  | [p] => "\"" ++ p.1 ++ "\": " ++ dumpJson p.2
  | p :: rest =>
      "\"" ++ p.1 ++ "\": " ++ dumpJson p.2 ++ ", " ++ dumpJsonFields rest
end

/-- Lines 112-114: list-valued `qnaQuestions`/`queryMetrics` cells are
serialized to JSON text. -/
def serializeListCell : Option Json → Option Json
  | some (.arr xs) => some (.str (dumpJson (.arr xs)))
  | c => c

/-- Line 141: `pd.to_datetime(col, errors='coerce')` converts the value
domain (to timestamps), not column names; modelled as the identity on
cells since no claim depends on parsed timestamp values. -/
def toDatetimeCell : Option Json → Option Json := fun c => c

/-- The record lists returned by the synchronous fetch helpers the
orchestrator calls (`get_paginated_data`, `get_paginated_admin_groups` —
external collaborators imported from the API-utils module, of which src/
holds the async variant).  Each field holds what the corresponding URL
family would return, keyed by the id values interpolated into the URL. -/
structure ApiData where
  capacities : List Json
  gateways : List Json
  gatewayDatasources : Json → List Json
  datasourceUsers : Json → Json → List Json
  workspaces : List Json
  apps : List Json
  appUsers : Json → List Json
  reportUsers : Option Json → Option Json → List Json

/-- Lines 15-22: the capacities table (`admins` list joined to a comma
string, then columns sanitized, both only when non-empty). -/
def capacitiesTable (api : ApiData) : Frame :=
  let f := mkFrame (api.capacities.map asObj)
  if f.isEmpty then f else (f.mapCol "admins" joinAdmins).sanitize

/-- Lines 30-33 and 54-56: gateways with `publicKey`/`gatewayAnnotation`
stripped. -/
def gatewaysTable (api : ApiData) : Frame :=
  let f := mkFrame (api.gateways.map fun g =>
    (asObj g).filter fun p =>
      !(p.1 == "publicKey") && !(p.1 == "gatewayAnnotation"))
  if f.isEmpty then f else f.sanitize

/-- Lines 40-45: tag a datasource with its gateway id and hoist
`credentialDetails` (when present and a dict) into prefixed keys. -/
def processDatasource (gid : Json) (ds : Rec) : Rec :=
  let ds2 := dictUpdate ds "gatewayId" gid
  match lookupJ ds2 "credentialDetails" with
  | some (.obj cds) =>
      cds.foldl
        (fun d p => dictUpdate d ("credentialDetails_" ++ p.1) p.2)
        (dictRemove ds2 "credentialDetails")
  | _ => ds2

/-- Lines 30-45: all gateway datasources (fetched per gateway with a
truthy id). -/
def allGatewayDatasources (api : ApiData) : List Rec :=
  api.gateways.flatMap fun g =>
    match lookupJ (asObj g) "id" with
    | some gid =>
        if truthy gid then
          (api.gatewayDatasources gid).map fun ds =>
            processDatasource gid (asObj ds)
        else []
    | none => []

/-- Lines 46-53: all datasource users, tagged with gateway and datasource
ids (the datasource id is read before the record is mutated). -/
def allDatasourceUsers (api : ApiData) : List Rec :=
  api.gateways.flatMap fun g =>
    match lookupJ (asObj g) "id" with
    | some gid =>
        if truthy gid then
          (api.gatewayDatasources gid).flatMap fun ds =>
            match lookupJ (asObj ds) "id" with
            | some dsid =>
                if truthy dsid then
                  (api.datasourceUsers gid dsid).map fun us =>
                    dictUpdate (dictUpdate (asObj us) "gatewayId" gid)
                      "datasourceId" dsid
                else []
            | none => []
        else []
    | none => []

/-- Lines 57-63: gateway datasources table (sanitize, then `details`
hoist, both under the non-empty guard). -/
def gatewayDatasourcesTable (api : ApiData) : Frame :=
  let f := mkFrame (allGatewayDatasources api)
  if f.isEmpty then f else detailsHoist f.sanitize

/-- Lines 64-66: gateway datasource users table. -/
def gatewayDatasourceUsersTable (api : ApiData) : Frame :=
  let f := mkFrame (allDatasourceUsers api)
  if f.isEmpty then f else f.sanitize

/-- Line 83: the retained subset of workspace fields (`ws.get(k)`,
`None` for a missing key). -/
def wsSummary (ws : Rec) : Rec :=
  ["id", "name", "isOnDedicatedCapacity", "capacityId", "type",
   "state"].map fun k => (k, (lookupJ ws k).getD .null)

/-- Lines 84-95: fan one embedded child list out of a workspace record,
tagging each child with the workspace foreign keys.  `ws['id']`/
`ws['name']` raise on a missing key in the source; modelled as null. -/
def wsChildren (ws : Rec) (key : String) : List Rec :=
  (asList ((lookupJ ws key).getD (.arr []))).map fun child =>
    dictUpdate
      (dictUpdate (asObj child) "workspace_id" ((lookupJ ws "id").getD .null))
      "workspace_name" ((lookupJ ws "name").getD .null)

/-- Lines 96-98: workspaces table. -/
def workspacesTable (api : ApiData) : Frame :=
  let f := mkFrame (api.workspaces.map fun ws => wsSummary (asObj ws))
  if f.isEmpty then f else f.sanitize

/-- Lines 99-105: workspace users table (sanitize, then profile hoist). -/
def workspaceUsersTable (api : ApiData) : Frame :=
  let f := mkFrame (api.workspaces.flatMap fun ws =>
    wsChildren (asObj ws) "users")
  if f.isEmpty then f else profileHoist f.sanitize

/-- Lines 106-108: reports table. -/
def reportsTable (api : ApiData) : Frame :=
  let f := mkFrame (api.workspaces.flatMap fun ws =>
    wsChildren (asObj ws) "reports")
  if f.isEmpty then f else f.sanitize

/-- Lines 109-114: datasets table (list-valued `qnaQuestions` and
`queryMetrics` cells serialized to JSON text). -/
def datasetsTable (api : ApiData) : Frame :=
  let f := mkFrame (api.workspaces.flatMap fun ws =>
    wsChildren (asObj ws) "datasets")
  if f.isEmpty then f
  else
    (f.sanitize.mapCol "qnaQuestions" serializeListCell).mapCol
      "queryMetrics" serializeListCell

/-- Lines 115-117: dataflows table. -/
def dataflowsTable (api : ApiData) : Frame :=
  let f := mkFrame (api.workspaces.flatMap fun ws =>
    wsChildren (asObj ws) "dataflows")
  if f.isEmpty then f else f.sanitize

/-- Lines 118-141: apps table (fetched only when the user opted in;
`lastUpdateDateTime` parsed to datetime). -/
def appsTable (api : ApiData) (includeUsers : Bool) : Frame :=
  let f := mkFrame (if includeUsers then api.apps.map asObj else [])
  if f.isEmpty then f
  else f.sanitize.mapCol "lastUpdateDateTime" toDatetimeCell

/-- Lines 124-134 and 142-148: app users table, tagged with app id and
name (profile hoisted). -/
def appUsersTable (api : ApiData) (includeUsers : Bool) : Frame :=
  let f := mkFrame
    (if includeUsers then
      api.apps.flatMap fun a =>
        (api.appUsers ((lookupJ (asObj a) "id").getD .null)).map fun us =>
          dictUpdate
            (dictUpdate (asObj us) "app_id"
              ((lookupJ (asObj a) "id").getD .null))
            "app_name" ((lookupJ (asObj a) "name").getD .null)
    else [])
  if f.isEmpty then f else profileHoist f.sanitize

/-- Lines 149-171: report users table: iterate the (sanitized) reports
table rows, fetch each report's users, tag with report id, name and
workspace id (profile hoisted). -/
def reportUsersTable (api : ApiData) (includeUsers : Bool) : Frame :=
  let rdf := reportsTable api
  let f := mkFrame
    (if includeUsers then
      if rdf.isEmpty then []
      else
        rdf.rows.flatMap fun r =>
          (api.reportUsers (rowCell rdf.cols r "workspace_id")
              (rowCell rdf.cols r "id")).map fun us =>
            dictUpdate
              (dictUpdate
                (dictUpdate (asObj us) "report_id"
                  ((rowCell rdf.cols r "id").getD .null))
                "report_name" ((rowCell rdf.cols r "name").getD .null))
              "workspace_id" ((rowCell rdf.cols r "workspace_id").getD .null)
    else [])
  if f.isEmpty then f else profileHoist f.sanitize

/-- `get_all_metadata(token, base_url, admin_base_url, verify_ssl,
include_report_app_users)` (lines 11-185): the twelve tables, in the order
of the returned dict. -/
def get_all_metadata (api : ApiData) (includeReportAppUsers : Bool) :
    List (String × Frame) :=
  [("capacities", capacitiesTable api),
   ("gateways", gatewaysTable api),
   ("gateway_datasources", gatewayDatasourcesTable api),
   ("gateway_datasource_users", gatewayDatasourceUsersTable api),
   ("workspaces", workspacesTable api),
   ("workspace_users", workspaceUsersTable api),
   ("reports", reportsTable api),
   ("report_users", reportUsersTable api includeReportAppUsers),
   ("datasets", datasetsTable api),
   ("dataflows", dataflowsTable api),
   ("apps", appsTable api includeReportAppUsers),
   ("app_users", appUsersTable api includeReportAppUsers)]

/-- Look a table up by name in the returned mapping. -/
def tableOf (tables : List (String × Frame)) (name : String) : Frame :=
  match tables.find? (fun p => p.1 == name) with
  | some p => p.2
  | none => ⟨[], []⟩

/-- The cell of row `i` under column label `name`. -/
def Frame.cell (f : Frame) (i : Nat) (name : String) : Option Json :=
  match f.rows[i]? with
  | some r => rowCell f.cols r name
  | none => none

/-! ### Column sanitation invariant (C7) -/

/-- Warehouse-safe column name: no `.` and no space anywhere. -/
def noDotSpace (s : String) : Bool :=
  s.data.all fun c => !(c == '.') && !(c == ' ')

/-- All column labels of a frame are warehouse-safe. -/
def colsOk (f : Frame) : Bool := f.cols.all noDotSpace

theorem noDotSpace_sanitizeCol (s : String) :
    noDotSpace (sanitizeCol s) = true := by
  simp only [noDotSpace, sanitizeCol, List.all_map, List.all_eq_true,
    Function.comp_apply]
  intro c hc
  by_cases h1 : c = '.' <;> by_cases h2 : c = ' ' <;> simp [h1, h2]

theorem noDotSpace_detailsName (c : String) :
    noDotSpace ("details_" ++ sanitizeCol c) = true := by
  have h := noDotSpace_sanitizeCol c
  simp only [noDotSpace, String.data_append, List.all_append,
    Bool.and_eq_true] at *
  exact ⟨by decide, h⟩

theorem colsOk_sanitize (f : Frame) : colsOk f.sanitize = true := by
  simp only [colsOk, Frame.sanitize, List.all_map, List.all_eq_true,
    Function.comp_apply]
  intro c _
  exact noDotSpace_sanitizeCol c

theorem colsOk_dropCol (f : Frame) (n : String) (h : colsOk f = true) :
    colsOk (f.dropCol n) = true := by
  simp only [colsOk, Frame.dropCol, List.all_eq_true] at *
  intro c hc
  exact h c (List.mem_of_mem_filter hc)

theorem colsOk_hconcat (f g : Frame) (h1 : colsOk f = true)
    (h2 : colsOk g = true) : colsOk (f.hconcat g) = true := by
  simp only [colsOk, Frame.hconcat, List.all_append, Bool.and_eq_true] at *
  exact ⟨h1, h2⟩

theorem colsOk_profileHoist (f : Frame) (h : colsOk f = true) :
    colsOk (profileHoist f) = true := by
  rw [profileHoist]
  by_cases hc : f.cols.contains "profile"
  · simp only [hc, if_true]
    exact colsOk_hconcat _ _ (colsOk_dropCol _ _ h) (colsOk_sanitize _)
  · simp only [hc]
    simpa using h

theorem colsOk_detailsHoist (f : Frame) (h : colsOk f = true) :
    colsOk (detailsHoist f) = true := by
  rw [detailsHoist]
  by_cases hc : f.cols.contains "details"
  · simp only [hc, if_true]
    refine colsOk_hconcat _ _ (colsOk_dropCol _ _ h) ?_
    simp only [colsOk, List.all_map, List.all_eq_true, Function.comp_apply]
    intro c _
    exact noDotSpace_detailsName c
  · simp only [hc]
    simpa using h

theorem colsOk_of_isEmpty_mkFrame (recs : List Rec)
    (h : (mkFrame recs).isEmpty = true) : colsOk (mkFrame recs) = true := by
  cases recs with
  | nil => rfl
  | cons r rest =>
    simp only [Frame.isEmpty, mkFrame, List.map_cons, List.isEmpty_cons,
      Bool.false_or] at h
    simp only [colsOk, mkFrame]
    rw [List.isEmpty_iff] at h
    simp [h]

theorem colsOk_capacitiesTable (api : ApiData) :
    colsOk (capacitiesTable api) = true := by
  simp only [capacitiesTable]
  by_cases h : (mkFrame (api.capacities.map asObj)).isEmpty
  · rw [if_pos h]
    exact colsOk_of_isEmpty_mkFrame _ h
  · rw [if_neg h]
    exact colsOk_sanitize _

theorem colsOk_gatewaysTable (api : ApiData) :
    colsOk (gatewaysTable api) = true := by
  simp only [gatewaysTable]
  by_cases h : (mkFrame (api.gateways.map fun g =>
      (asObj g).filter fun p =>
        !(p.1 == "publicKey") && !(p.1 == "gatewayAnnotation"))).isEmpty
  · rw [if_pos h]
    exact colsOk_of_isEmpty_mkFrame _ h
  · rw [if_neg h]
    exact colsOk_sanitize _

theorem colsOk_gatewayDatasourcesTable (api : ApiData) :
    colsOk (gatewayDatasourcesTable api) = true := by
  simp only [gatewayDatasourcesTable]
  by_cases h : (mkFrame (allGatewayDatasources api)).isEmpty
  · rw [if_pos h]
    exact colsOk_of_isEmpty_mkFrame _ h
  · rw [if_neg h]
    exact colsOk_detailsHoist _ (colsOk_sanitize _)

theorem colsOk_gatewayDatasourceUsersTable (api : ApiData) :
    colsOk (gatewayDatasourceUsersTable api) = true := by
  simp only [gatewayDatasourceUsersTable]
  by_cases h : (mkFrame (allDatasourceUsers api)).isEmpty
  · rw [if_pos h]
    exact colsOk_of_isEmpty_mkFrame _ h
  · rw [if_neg h]
    exact colsOk_sanitize _

theorem colsOk_workspacesTable (api : ApiData) :
    colsOk (workspacesTable api) = true := by
  simp only [workspacesTable]
  by_cases h : (mkFrame (api.workspaces.map fun ws =>
      wsSummary (asObj ws))).isEmpty
  · rw [if_pos h]
    exact colsOk_of_isEmpty_mkFrame _ h
  · rw [if_neg h]
    exact colsOk_sanitize _

theorem colsOk_workspaceUsersTable (api : ApiData) :
    colsOk (workspaceUsersTable api) = true := by
  simp only [workspaceUsersTable]
  by_cases h : (mkFrame (api.workspaces.flatMap fun ws =>
      wsChildren (asObj ws) "users")).isEmpty
  · rw [if_pos h]
    exact colsOk_of_isEmpty_mkFrame _ h
  · rw [if_neg h]
    exact colsOk_profileHoist _ (colsOk_sanitize _)

theorem colsOk_reportsTable (api : ApiData) :
    colsOk (reportsTable api) = true := by
  simp only [reportsTable]
  by_cases h : (mkFrame (api.workspaces.flatMap fun ws =>
      wsChildren (asObj ws) "reports")).isEmpty
  · rw [if_pos h]
    exact colsOk_of_isEmpty_mkFrame _ h
  · rw [if_neg h]
    exact colsOk_sanitize _

theorem colsOk_datasetsTable (api : ApiData) :
    colsOk (datasetsTable api) = true := by
  simp only [datasetsTable]
  by_cases h : (mkFrame (api.workspaces.flatMap fun ws =>
      wsChildren (asObj ws) "datasets")).isEmpty
  · rw [if_pos h]
    exact colsOk_of_isEmpty_mkFrame _ h
  · rw [if_neg h]
    exact colsOk_sanitize _

theorem colsOk_dataflowsTable (api : ApiData) :
    colsOk (dataflowsTable api) = true := by
  simp only [dataflowsTable]
  by_cases h : (mkFrame (api.workspaces.flatMap fun ws =>
      wsChildren (asObj ws) "dataflows")).isEmpty
  · rw [if_pos h]
    exact colsOk_of_isEmpty_mkFrame _ h
  · rw [if_neg h]
    exact colsOk_sanitize _

theorem colsOk_appsTable (api : ApiData) (inc : Bool) :
    colsOk (appsTable api inc) = true := by
  simp only [appsTable]
  by_cases h : (mkFrame (if inc then api.apps.map asObj else [])).isEmpty
  · rw [if_pos h]
    exact colsOk_of_isEmpty_mkFrame _ h
  · rw [if_neg h]
    exact colsOk_sanitize _

theorem colsOk_appUsersTable (api : ApiData) (inc : Bool) :
    colsOk (appUsersTable api inc) = true := by
  simp only [appUsersTable]
  by_cases h : (mkFrame (if inc then
      api.apps.flatMap fun a =>
        (api.appUsers ((lookupJ (asObj a) "id").getD .null)).map fun us =>
          dictUpdate
            (dictUpdate (asObj us) "app_id"
              ((lookupJ (asObj a) "id").getD .null))
            "app_name" ((lookupJ (asObj a) "name").getD .null)
    else [])).isEmpty
  · rw [if_pos h]
    exact colsOk_of_isEmpty_mkFrame _ h
  · rw [if_neg h]
    exact colsOk_profileHoist _ (colsOk_sanitize _)

theorem colsOk_reportUsersTable (api : ApiData) (inc : Bool) :
    colsOk (reportUsersTable api inc) = true := by
  rw [reportUsersTable]
  set recs := (if inc then
      if (reportsTable api).isEmpty then []
      else
        (reportsTable api).rows.flatMap fun r =>
          (api.reportUsers
              (rowCell (reportsTable api).cols r "workspace_id")
              (rowCell (reportsTable api).cols r "id")).map fun us =>
            dictUpdate
              (dictUpdate
                (dictUpdate (asObj us) "report_id"
                  ((rowCell (reportsTable api).cols r "id").getD .null))
                "report_name"
                ((rowCell (reportsTable api).cols r "name").getD .null))
              "workspace_id"
              ((rowCell (reportsTable api).cols r "workspace_id").getD .null)
    else []) with hrecs
  by_cases h : (mkFrame recs).isEmpty
  · rw [if_pos h]
    exact colsOk_of_isEmpty_mkFrame _ h
  · rw [if_neg h]
    exact colsOk_profileHoist _ (colsOk_sanitize _)

/-- C7: in every table returned by `get_all_metadata`, every column name
has every `.` and space replaced by `_` (equivalently, contains neither);
and the sanitizer maps the raw name `Last Update.Time` to
`Last_Update_Time`. -/
theorem c7_column_sanitation :
    (∀ (api : ApiData) (inc : Bool),
      ((get_all_metadata api inc).all fun p => colsOk p.2) = true)
    ∧ sanitizeCol "Last Update.Time" = "Last_Update_Time" := by
  constructor
  · intro api inc
    simp only [get_all_metadata, List.all_cons, List.all_nil,
      Bool.and_eq_true]
    exact ⟨colsOk_capacitiesTable api, colsOk_gatewaysTable api,
      colsOk_gatewayDatasourcesTable api,
      colsOk_gatewayDatasourceUsersTable api, colsOk_workspacesTable api,
      colsOk_workspaceUsersTable api, colsOk_reportsTable api,
      colsOk_reportUsersTable api inc, colsOk_datasetsTable api,
      colsOk_dataflowsTable api, colsOk_appsTable api inc,
      colsOk_appUsersTable api inc, trivial⟩
  · decide

/-- A concrete API snapshot: one workspace `w1`/`WS` with one user carrying
a nested profile and one report `r1`/`R`; one app `a1`/`A`; per-app and
per-report user lists each with one profiled user. -/
def apiC8 : ApiData :=
  ⟨[], [], fun _ => [], fun _ _ => [],
   [Json.obj [("id", .str "w1"), ("name", .str "WS"),
     ("users", .arr [.obj [("id", .str "u1"),
       ("profile", .obj [("email", .str "a@b.com")])]]),
     ("reports", .arr [.obj [("id", .str "r1"), ("name", .str "R")]])]],
   [Json.obj [("id", .str "a1"), ("name", .str "A")]],
   fun _ => [Json.obj [("id", .str "u2"),
     ("profile", .obj [("email", .str "c@d.com")])]],
   fun _ _ => [Json.obj [("id", .str "u3"),
     ("profile", .obj [("email", .str "e@f.com")])]]⟩

/-- C8: the workspace user row carries the workspace foreign keys, its own
id, and the hoisted `profile_email`, with no `profile` column left; the
same profile hoisting happens for app users and report users. -/
theorem c8_profile_hoisting :
    ((tableOf (get_all_metadata apiC8 true) "workspace_users").cell 0
        "workspace_id" = some (.str "w1")
     ∧ (tableOf (get_all_metadata apiC8 true) "workspace_users").cell 0
        "workspace_name" = some (.str "WS")
     ∧ (tableOf (get_all_metadata apiC8 true) "workspace_users").cell 0
        "id" = some (.str "u1")
     ∧ (tableOf (get_all_metadata apiC8 true) "workspace_users").cell 0
        "profile_email" = some (.str "a@b.com")
     ∧ (tableOf (get_all_metadata apiC8 true)
          "workspace_users").cols.contains "profile" = false)
    ∧ ((tableOf (get_all_metadata apiC8 true) "app_users").cell 0 "app_id"
        = some (.str "a1")
       ∧ (tableOf (get_all_metadata apiC8 true) "app_users").cell 0
          "profile_email" = some (.str "c@d.com")
       ∧ (tableOf (get_all_metadata apiC8 true) "app_users").cols.contains
          "profile" = false)
    ∧ ((tableOf (get_all_metadata apiC8 true) "report_users").cell 0
        "report_id" = some (.str "r1")
       ∧ (tableOf (get_all_metadata apiC8 true) "report_users").cell 0
          "workspace_id" = some (.str "w1")
       ∧ (tableOf (get_all_metadata apiC8 true) "report_users").cell 0
          "profile_email" = some (.str "e@f.com")
       ∧ (tableOf (get_all_metadata apiC8 true)
            "report_users").cols.contains "profile" = false) :=
  ⟨⟨rfl, rfl, rfl, rfl, rfl⟩, ⟨rfl, rfl, rfl⟩, ⟨rfl, rfl, rfl, rfl⟩⟩
